import Mathlib

/-!
Verification development for the `idfm` Home Assistant integration.

The development shallowly embeds the two business-logic components of the
repository and the coordinator's update pipeline:

* `custom_components/idfm/api_wrapper.py` — the multi-key credential
  rotator (`MultiKeyIDFMApi`): `rotate_key`, `call_with_retry` and the
  per-operation wrappers.
* `custom_components/idfm/topology.py` — the line-topology resolver
  (`LineTopology`): identifier normalization (`extract_stif_id`), the
  cached fetch (`get_ordered_stops`) and the path check
  (`check_stop_on_path`).
* `custom_components/idfm/__init__.py` — the coordinator's normalization
  (`coord_extract_stif_id`) and the filter-and-sort update pipeline
  (`async_update_data`).

Python strings are modelled as lists of characters (`PyStr`), Python
dicts as association lists queried through `dictLookup`, network
responses as oracles (`NavitiaNet`, `Nat → CallResult α`), and
exceptions as explicit `Option` / error values.
-/

/-- Python `str` modelled as a list of characters. -/
abbrev PyStr := List Char

/-- Python dict lookup over an association list: first binding wins,
`none` when the key is absent (models `k in d` / `d[k]`). -/
def dictLookup {β : Type} (d : List (PyStr × β)) (k : PyStr) : Option β :=
  match d with
  | [] => none
  | (k2, v) :: rest => if k2 = k then some v else dictLookup rest k

/-! ### Identifier normalization (`topology.py::_extract_stif_id` and
`__init__.py::IDFMDataUpdateCoordinator._extract_stif_id`) -/

/-- Python `s.split(":")`: split on every colon, keeping empty segments
(so a trailing colon yields a trailing empty segment). -/
def splitColon : PyStr → List PyStr
  | [] => [[]]
  | ch :: rest =>
    if ch = ':' then [] :: splitColon rest
    else
      match splitColon rest with
      | [] => [[ch]]
      | seg :: segs => (ch :: seg) :: segs

/-- Python `"IDFM:" in s`: substring containment of the literal `IDFM:`
(the literal occurs at some position of `s`). -/
def containsIDFM : PyStr → Bool
  | [] => false
  | ch :: rest => ['I', 'D', 'F', 'M', ':'].isPrefixOf (ch :: rest) || containsIDFM rest

/-- Python `s.split("IDFM:")`: split on every non-overlapping occurrence
of the literal `IDFM:`, scanning left to right. -/
def splitIDFM : PyStr → List PyStr
  | 'I' :: 'D' :: 'F' :: 'M' :: ':' :: rest => [] :: splitIDFM rest
  | ch :: rest =>
    match splitIDFM rest with
    | [] => [[ch]]
    | seg :: segs => (ch :: seg) :: segs
  | [] => [[]]

/-- `topology.py::LineTopology._extract_stif_id`: strip everything up to
the first `IDFM:` when present, then take the second-to-last
colon-delimited segment; an `IndexError` (fewer than two segments)
yields `None`. -/
def extract_stif_id (navitia_id : PyStr) : Option PyStr :=
  let stif_part :=
    if containsIDFM navitia_id then (splitIDFM navitia_id).getD 1 []
    else navitia_id
  let parts := splitColon stif_part
  if 2 ≤ parts.length then some (parts.getD (parts.length - 2) []) else none

/-- `__init__.py::IDFMDataUpdateCoordinator._extract_stif_id`: falsy
input (`None` or the empty string) yields `None`; otherwise take the
second-to-last colon segment, and on `IndexError` return the input
unchanged. -/
def coord_extract_stif_id (full_id : Option PyStr) : Option PyStr :=
  match full_id with
  | none => none
  | some s =>
    if s = [] then none
    else
      let parts := splitColon s
      if 2 ≤ parts.length then some (parts.getD (parts.length - 2) []) else some s

/-- A well-formed composite identifier `A:B:C:CODE:`. -/
def compositeId (a b c code : PyStr) : PyStr :=
  a ++ ':' :: (b ++ ':' :: (c ++ ':' :: (code ++ [':'])))

/-! ### Path check (`topology.py::check_stop_on_path`) -/

/-- An ordered route: normalized stop identifiers from origin to terminus. -/
abbrev Route := List PyStr

/-- A topology table: terminus identifier to the routes ending there. -/
abbrev Topology := List (PyStr × List Route)

/-- Python `route.index(x)`: index of the first occurrence, `none` when
absent (where CPython raises `ValueError`). -/
def pyIndex : Route → PyStr → Option Nat
  | [], _ => none
  | s :: rest, x => if s = x then some 0 else (pyIndex rest x).map (· + 1)

/-- The body of the `for route in possible_routes` loop of
`check_stop_on_path`: all three indices must exist (a `ValueError`
skips the route) and satisfy `idx_start < idx_target <= idx_end`. -/
def route_matches (route : Route) (start_id target_id terminus_id : PyStr) : Bool :=
  match pyIndex route start_id, pyIndex route target_id, pyIndex route terminus_id with
  | some i, some t, some e => decide (i < t) && decide (t ≤ e)
  | _, _, _ => false

/-- `topology.py::LineTopology.check_stop_on_path`. -/
def check_stop_on_path (topology : Topology) (start_id target_id terminus_id : PyStr) : Bool :=
  match dictLookup topology terminus_id with
  | none => false
  | some possible_routes =>
    possible_routes.any (fun r => route_matches r start_id target_id terminus_id)

/-- The spec's wording of the path condition: `terminusId` is a key of
the table, and some route stored under that key contains all three
identifiers with `index(start) < index(target) <= index(terminus)`,
positions being first occurrences (`List.indexOf`). -/
def specOnPath (topology : Topology) (start_id target_id terminus_id : PyStr) : Prop :=
  ∃ routes, dictLookup topology terminus_id = some routes ∧
    ∃ r ∈ routes,
      start_id ∈ r ∧ target_id ∈ r ∧ terminus_id ∈ r ∧
      r.indexOf start_id < r.indexOf target_id ∧
      r.indexOf target_id ≤ r.indexOf terminus_id

/-- The spec's end-to-end example: one route `[100, 200, 300, 400]`
with terminus `400`. -/
def demoRoute : Route := ["100".data, "200".data, "300".data, "400".data]

/-! ### Topology fetch and cache (`topology.py::get_ordered_stops`) -/

/-- The topology data source: `routes lineId` models the
`/lines/...:lineId/routes` request (`none` for a non-200 response, a
transport error, or a body without a `routes` key), `stop_points rid`
models the `/routes/rid/stop_points` request, returning the raw
`sp["id"]` strings in order. -/
structure NavitiaNet where
  routes : PyStr → Option (List PyStr)
  stop_points : PyStr → Option (List PyStr)

/-- One stop point of a route: `stop_id = self._extract_stif_id(sp["id"])`
followed by the truthiness guard `if stop_id:` (drops `None` and the
empty string). -/
def truthyExtract (sp_id : PyStr) : Option PyStr :=
  match extract_stif_id sp_id with
  | none => none
  | some s => if s = [] then none else some s

/-- `topology[terminus].append(ordered_stops)`, creating the key at the
end of the dict when absent. -/
def addRoute (topo : Topology) (terminus : PyStr) (r : Route) : Topology :=
  match topo with
  | [] => [(terminus, [r])]
  | (k, rs) :: rest =>
    if k = terminus then (k, rs ++ [r]) :: rest else (k, rs) :: addRoute rest terminus r

/-- The body of the `for route in routes_data["routes"]` loop: fetch the
route's stop points, normalize and keep truthy identifiers, and when the
list is non-empty group it under its last element (the terminus). -/
def processRoute (net : NavitiaNet) (topo : Topology) (route_id : PyStr) : Topology :=
  match net.stop_points route_id with
  | none => topo
  | some sps =>
    let ordered := sps.filterMap truthyExtract
    if h : ordered = [] then topo
    else addRoute topo (ordered.getLast h) ordered

/-- `topology.py::LineTopology.get_ordered_stops`. Returns the table,
the cache after the call, and the number of network requests issued
(one for the routes list plus one per route on the success path). -/
def get_ordered_stops (net : NavitiaNet) (cache : List (PyStr × Topology)) (line_id : PyStr) :
    Topology × List (PyStr × Topology) × Nat :=
  match dictLookup cache line_id with
  | some topo => (topo, cache, 0)
  | none =>
    match net.routes line_id with
    | none => ([], cache, 1)
    | some route_ids =>
      let topo := route_ids.foldl (processRoute net) []
      (topo, (line_id, topo) :: cache, 1 + route_ids.length)

/-! ### Credential rotator (`api_wrapper.py::MultiKeyIDFMApi`) -/

/-- Outcome of one underlying API call: a value, or a `RequestError`
carrying its numeric status code. -/
inductive CallResult (α : Type) where
  | ok : α → CallResult α
  | err : Nat → CallResult α
deriving DecidableEq

/-- `MultiKeyIDFMApi._rotate_key`: advance the active index round-robin. -/
def rotate_key (n idx : Nat) : Nat := (idx + 1) % n

/-- The `while attempts < max_attempts` loop of `_call_with_retry`,
with `fuel = max_attempts - attempts`. Returns the active index after
the call, the outcome (`err 429` upon exhaustion, modelling
`raise RequestError(429, "All API keys are rate limited.")`), and the
list of client indices actually invoked, in order. -/
def call_with_retry_loop {α : Type} (func : Nat → CallResult α) (n : Nat) :
    Nat → Nat → Nat × CallResult α × List Nat
  | idx, 0 => (idx, CallResult.err 429, [])
  | idx, fuel + 1 =>
    match func idx with
    | CallResult.ok a => (idx, CallResult.ok a, [idx])
    | CallResult.err code =>
      if code = 429 then
        let r := call_with_retry_loop func n (rotate_key n idx) fuel
        (r.1, r.2.1, idx :: r.2.2)
      else (idx, CallResult.err code, [idx])

/-- `MultiKeyIDFMApi._call_with_retry`: at most `n = len(self._tokens)`
attempts starting from the currently active index. -/
def call_with_retry {α : Type} (func : Nat → CallResult α) (n idx : Nat) :
    Nat × CallResult α × List Nat :=
  call_with_retry_loop func n idx n

/-- `MultiKeyIDFMApi.get_lines`: one direct call on the current client,
no retry loop. -/
def get_lines {α : Type} (func : Nat → CallResult α) (idx : Nat) :
    Nat × CallResult α × List Nat :=
  (idx, func idx, [idx])

/-- `MultiKeyIDFMApi.get_stops`: one direct call on the current client,
no retry loop. -/
def get_stops {α : Type} (func : Nat → CallResult α) (idx : Nat) :
    Nat × CallResult α × List Nat :=
  (idx, func idx, [idx])

/-- `MultiKeyIDFMApi.get_traffic`: delegates to `_call_with_retry`. -/
def get_traffic {α : Type} (func : Nat → CallResult α) (n idx : Nat) :
    Nat × CallResult α × List Nat :=
  call_with_retry func n idx

/-- `MultiKeyIDFMApi.get_destinations`: delegates to `_call_with_retry`. -/
def get_destinations {α : Type} (func : Nat → CallResult α) (n idx : Nat) :
    Nat × CallResult α × List Nat :=
  call_with_retry func n idx

/-- `MultiKeyIDFMApi.get_directions`: delegates to `_call_with_retry`. -/
def get_directions {α : Type} (func : Nat → CallResult α) (n idx : Nat) :
    Nat × CallResult α × List Nat :=
  call_with_retry func n idx

/-- `MultiKeyIDFMApi.get_infos`: delegates to `_call_with_retry`. -/
def get_infos {α : Type} (func : Nat → CallResult α) (n idx : Nat) :
    Nat × CallResult α × List Nat :=
  call_with_retry func n idx

/-- `MultiKeyIDFMApi.get_line_reports`: delegates to `_call_with_retry`. -/
def get_line_reports {α : Type} (func : Nat → CallResult α) (n idx : Nat) :
    Nat × CallResult α × List Nat :=
  call_with_retry func n idx

/-! ### Update pipeline (`__init__.py::_async_update_data`) -/

/-- A departure prediction: schedule instant (when present),
destination identifier as delivered by the provider, and an opaque
payload standing for the record's remaining fields. -/
structure TrafficData where
  schedule : Option Nat
  destination_id : PyStr
  payload : Nat
deriving DecidableEq

/-- Python truthiness of an optional string (`None` and `""` are falsy). -/
def isTruthy : Option PyStr → Bool
  | none => false
  | some s => decide (s ≠ [])

/-- `check_stop_on_path` as invoked from the coordinator, where any of
the three identifiers may be `None`: `None` is never a dict key and
`route.index(None)` always raises over routes of strings, so any absent
argument makes the check false. -/
def checkOpt (topo : Topology) (s t e : Option PyStr) : Bool :=
  match s, t, e with
  | some s, some t, some e => check_stop_on_path topo s t e
  | _, _, _ => false

/-- The per-departure topology filter of `_async_update_data`: extract
the train's terminus with the coordinator's normalization and check the
configured stop/destination pair against it. -/
def topoPred (topo : Topology) (stop_simple dest_simple : Option PyStr)
    (train : TrafficData) : Bool :=
  checkOpt topo stop_simple dest_simple (coord_extract_stif_id (some train.destination_id))

/-- The time filter `x.schedule is not None and x.schedule > utcd`. -/
def timePred (now : Nat) (x : TrafficData) : Bool :=
  match x.schedule with
  | some s => decide (now < s)
  | none => false

/-- The sort key `key=lambda x: x.schedule` (all surviving records have
a schedule). -/
def schedKey (x : TrafficData) : Nat := x.schedule.getD 0

/-- Stable insertion into a schedule-sorted list. -/
def insertSched (x : TrafficData) : List TrafficData → List TrafficData
  | [] => [x]
  | y :: rest =>
    if schedKey x ≤ schedKey y then x :: y :: rest else y :: insertSched x rest

/-- Python `sorted(..., key=lambda x: x.schedule)`: stable ascending
sort by schedule. -/
def sortSched : List TrafficData → List TrafficData
  | [] => []
  | x :: rest => insertSched x (sortSched rest)

/-- The departures part of `_async_update_data`: the optional topology
filtering pass (guarded by `use_topology and self.destination_simple`),
then the time filter and the ascending schedule sort. -/
def async_update_data (topo : Topology) (use_topology : Bool)
    (stop_simple dest_simple : Option PyStr) (now : Nat)
    (tr : List TrafficData) : List TrafficData :=
  let tr2 :=
    if use_topology && isTruthy dest_simple then
      tr.filter (topoPred topo stop_simple dest_simple)
    else tr
  sortSched (tr2.filter (timePred now))

/-! ### Rotator lemmas -/

/-- When every credential is rate limited, the retry loop consumes all
its fuel, visiting successive indices modulo `n`. -/
theorem call_with_retry_loop_all429 {α : Type} (func : Nat → CallResult α) (n : Nat)
    (hall : ∀ i, func i = CallResult.err 429) :
    ∀ (fuel idx : Nat), idx < n →
      call_with_retry_loop func n idx fuel =
        ((idx + fuel) % n, CallResult.err 429,
          (List.range fuel).map (fun k => (idx + k) % n)) := by
  intro fuel
  induction fuel with
  | zero =>
    intro idx hidx
    simp [call_with_retry_loop, Nat.mod_eq_of_lt hidx]
  | succ m ih =>
    intro idx hidx
    have hn : 0 < n := Nat.lt_of_le_of_lt (Nat.zero_le _) hidx
    have hrot : rotate_key n idx < n := Nat.mod_lt _ hn
    rw [call_with_retry_loop, hall idx]
    simp only [if_pos rfl, ih (rotate_key n idx) hrot]
    refine congrArg₂ Prod.mk ?_ (congrArg₂ Prod.mk rfl ?_)
    · show (rotate_key n idx + m) % n = (idx + (m + 1)) % n
      rw [rotate_key, Nat.mod_add_mod]
      congr 1
      omega
    · show idx :: (List.range m).map (fun k => (rotate_key n idx + k) % n) =
        (List.range (m + 1)).map (fun k => (idx + k) % n)
      rw [List.range_succ_eq_map, List.map_cons, List.map_map]
      refine congrArg₂ List.cons ?_ ?_
      · rw [Nat.add_zero, Nat.mod_eq_of_lt hidx]
      · refine List.map_congr_left (fun k _ => ?_)
        show (rotate_key n idx + k) % n = (idx + (k + 1)) % n
        rw [rotate_key, Nat.mod_add_mod]
        congr 1
        omega

/-- The retry loop makes at least one underlying call whenever it has fuel. -/
theorem call_with_retry_loop_pos {α : Type} (func : Nat → CallResult α) (n idx fuel : Nat)
    (hfuel : 1 ≤ fuel) :
    1 ≤ (call_with_retry_loop func n idx fuel).2.2.length := by
  match fuel, hfuel with
  | f + 1, _ =>
    rw [call_with_retry_loop]
    cases func idx with
    | ok a => simp
    | err code =>
      by_cases hc : code = 429
      · simp [hc]
      · simp [hc]

/-- With at least two credentials and the active one rate limited, the
retry loop makes a second underlying call. -/
theorem call_with_retry_two_calls {α : Type} (func : Nat → CallResult α) (n idx : Nat)
    (h : func idx = CallResult.err 429) (hn : 2 ≤ n) :
    2 ≤ (call_with_retry func n idx).2.2.length := by
  rw [call_with_retry]
  match n, hn with
  | m + 2, _ =>
    rw [call_with_retry_loop, h]
    simp only [reduceIte, List.length_cons]
    have := call_with_retry_loop_pos func (m + 2) (rotate_key (m + 2) idx) (m + 1)
      (Nat.le_add_left 1 m)
    omega

/-- C2: with an N-credential pool where every credential is rate
limited (code 429), one logical call through the rotator makes exactly
N underlying attempts — the invoked indices are pairwise distinct, so
each credential is tried at most once — and fails with the exhaustion
error carrying code 429, never making an N+1-th attempt. -/
theorem all_keys_rate_limited_exhausts {α : Type} (func : Nat → CallResult α) (n i0 : Nat)
    (hidx : i0 < n) (hall : ∀ i, func i = CallResult.err 429) :
    (call_with_retry func n i0).2.1 = CallResult.err 429 ∧
    (call_with_retry func n i0).2.2.length = n ∧
    (call_with_retry func n i0).2.2.Nodup := by
  rw [call_with_retry, call_with_retry_loop_all429 func n hall n i0 hidx]
  refine ⟨rfl, by simp, ?_⟩
  refine List.Nodup.map_on ?_ (List.nodup_range n)
  intro k1 hk1 k2 hk2 heq
  have h1 : k1 < n := List.mem_range.mp hk1
  have h2 : k2 < n := List.mem_range.mp hk2
  have hmod : k1 ≡ k2 [MOD n] := Nat.ModEq.add_left_cancel' i0 heq
  rwa [Nat.ModEq, Nat.mod_eq_of_lt h1, Nat.mod_eq_of_lt h2] at hmod

/-- Witness for C2 at a concrete 3-credential pool. -/
theorem all_keys_rate_limited_exhausts_witness :
    (call_with_retry (fun _ => (CallResult.err 429 : CallResult Nat)) 3 0).2.1 =
      CallResult.err 429 ∧
    (call_with_retry (fun _ => (CallResult.err 429 : CallResult Nat)) 3 0).2.2.length = 3 ∧
    (call_with_retry (fun _ => (CallResult.err 429 : CallResult Nat)) 3 0).2.2.Nodup :=
  all_keys_rate_limited_exhausts (fun _ => CallResult.err 429) 3 0 (by decide) (fun _ => rfl)

/-- C7: with a 2-credential pool where credential 0 is rate limited and
credential 1 succeeds, the logical call returns the successful result
on the second underlying attempt (invoked indices [0, 1]) and leaves
the active index at 1. -/
theorem second_key_succeeds {α : Type} (v : α) (func : Nat → CallResult α)
    (h0 : func 0 = CallResult.err 429) (h1 : func 1 = CallResult.ok v) :
    call_with_retry func 2 0 = (1, CallResult.ok v, [0, 1]) := by
  rw [call_with_retry, call_with_retry_loop, h0]
  simp only [reduceIte]
  rw [show rotate_key 2 0 = 1 from rfl, call_with_retry_loop, h1]

/-- Witness for C7 at a concrete pool. -/
theorem second_key_succeeds_witness :
    call_with_retry (fun i => if i = 0 then CallResult.err 429 else CallResult.ok 7) 2 0 =
      (1, CallResult.ok 7, [0, 1]) :=
  second_key_succeeds 7 _ rfl rfl

/-- C8: an error whose code is not 429 propagates to the caller
immediately: exactly one underlying call, the active index unchanged,
no rotation and no retry. -/
theorem other_error_propagates {α : Type} (func : Nat → CallResult α) (n idx code : Nat)
    (hn : 0 < n) (hc : code ≠ 429) (h : func idx = CallResult.err code) :
    call_with_retry func n idx = (idx, CallResult.err code, [idx]) := by
  rw [call_with_retry]
  match n, hn with
  | m + 1, _ =>
    rw [call_with_retry_loop, h]
    simp [hc]

/-- Witness for C8 at a concrete 500 error. -/
theorem other_error_propagates_witness :
    call_with_retry (fun _ => (CallResult.err 500 : CallResult Nat)) 2 0 =
      (0, CallResult.err 500, [0]) :=
  other_error_propagates _ 2 0 500 (by decide) (by decide) rfl

/-- C10: get_lines and get_stops invoke only the currently active
client, so a 429 propagates directly — index unchanged, exactly one
underlying call, no retry — while get_traffic, get_destinations,
get_directions, get_infos and get_line_reports go through the
rotation-retry loop and, under the same 429 on the active client, make
a second underlying attempt. -/
theorem direct_calls_skip_retry {α : Type} (func : Nat → CallResult α) (n idx : Nat)
    (h : func idx = CallResult.err 429) (hn : 2 ≤ n) :
    get_lines func idx = (idx, CallResult.err 429, [idx]) ∧
    get_stops func idx = (idx, CallResult.err 429, [idx]) ∧
    2 ≤ (get_traffic func n idx).2.2.length ∧
    2 ≤ (get_destinations func n idx).2.2.length ∧
    2 ≤ (get_directions func n idx).2.2.length ∧
    2 ≤ (get_infos func n idx).2.2.length ∧
    2 ≤ (get_line_reports func n idx).2.2.length := by
  have h2 := call_with_retry_two_calls func n idx h hn
  exact ⟨by rw [get_lines, h], by rw [get_stops, h], h2, h2, h2, h2, h2⟩

/-- Witness for C10 at a concrete 2-credential pool. -/
theorem direct_calls_skip_retry_witness :
    get_lines (fun _ => (CallResult.err 429 : CallResult Nat)) 0 =
      (0, CallResult.err 429, [0]) ∧
    get_stops (fun _ => (CallResult.err 429 : CallResult Nat)) 0 =
      (0, CallResult.err 429, [0]) ∧
    2 ≤ (get_traffic (fun _ => (CallResult.err 429 : CallResult Nat)) 2 0).2.2.length ∧
    2 ≤ (get_destinations (fun _ => (CallResult.err 429 : CallResult Nat)) 2 0).2.2.length ∧
    2 ≤ (get_directions (fun _ => (CallResult.err 429 : CallResult Nat)) 2 0).2.2.length ∧
    2 ≤ (get_infos (fun _ => (CallResult.err 429 : CallResult Nat)) 2 0).2.2.length ∧
    2 ≤ (get_line_reports (fun _ => (CallResult.err 429 : CallResult Nat)) 2 0).2.2.length :=
  direct_calls_skip_retry _ 2 0 rfl (by decide)

/-! ### Normalization lemmas -/

/-- Splitting a colon-free prefix followed by a colon peels off the prefix. -/
theorem splitColon_append (a rest : PyStr) (h : ':' ∉ a) :
    splitColon (a ++ ':' :: rest) = a :: splitColon rest := by
  induction a with
  | nil => simp [splitColon]
  | cons ch tl ih =>
    have hch : ch ≠ ':' := fun he => h (he ▸ List.mem_cons_self ch tl)
    have htl : ':' ∉ tl := fun hm => h (List.mem_cons_of_mem _ hm)
    simp only [List.cons_append, splitColon, List.append_eq, if_neg hch, ih htl]

/-- Splitting a colon-free string yields the single segment. -/
theorem splitColon_no_colon (a : PyStr) (h : ':' ∉ a) : splitColon a = [a] := by
  induction a with
  | nil => rfl
  | cons ch tl ih =>
    have hch : ch ≠ ':' := fun he => h (he ▸ List.mem_cons_self ch tl)
    have htl : ':' ∉ tl := fun hm => h (List.mem_cons_of_mem _ hm)
    simp only [splitColon, if_neg hch, ih htl]

/-- Splitting a well-formed composite identifier yields its four
segments followed by the empty trailing segment. -/
theorem splitColon_composite (a b c code : PyStr)
    (ha : ':' ∉ a) (hb : ':' ∉ b) (hc : ':' ∉ c) (hcode : ':' ∉ code) :
    splitColon (compositeId a b c code) = [a, b, c, code, []] := by
  rw [compositeId, splitColon_append a _ ha, splitColon_append b _ hb,
    splitColon_append c _ hc, splitColon_append code _ hcode]
  rfl

/-- A colon-free string cannot contain the literal `IDFM:`. -/
theorem containsIDFM_eq_false (s : PyStr) (h : ':' ∉ s) : containsIDFM s = false := by
  induction s with
  | nil => rfl
  | cons ch tl ih =>
    have htl : ':' ∉ tl := fun hm => h (List.mem_cons_of_mem _ hm)
    rw [containsIDFM, ih htl, Bool.or_false]
    by_contra hp
    rw [Bool.not_eq_false] at hp
    have hpre := List.isPrefixOf_iff_prefix.mp hp
    exact h (hpre.subset (by decide))

/-- C3 counterexample: the coordinator's normalization does not map
malformed input to an absent value — the colon-free input `43114`
(which is itself a real stop code) normalizes to itself, not to `none`,
so containment checks with it do not fail closed. -/
theorem coord_normalization_returns_input :
    coord_extract_stif_id (some ['4', '3', '1', '1', '4']) =
      some ['4', '3', '1', '1', '4'] := by decide

/-- C3 (amended): for every composite identifier `A:B:C:CODE:` with
colon-free segments, the coordinator's normalization yields `CODE`, and
so does the topology helper's normalization provided the identifier
does not contain the substring `IDFM:`. On malformed input with no
colon segment, the topology helper normalizes to an absent value, but
the coordinator's normalization returns a non-empty input unchanged and
yields an absent value only for absent or empty input. -/
theorem normalization_behavior (a b c code s : PyStr)
    (ha : ':' ∉ a) (hb : ':' ∉ b) (hc : ':' ∉ c) (hcode : ':' ∉ code)
    (hno : containsIDFM (compositeId a b c code) = false)
    (hs : ':' ∉ s) (hsne : s ≠ []) :
    extract_stif_id (compositeId a b c code) = some code ∧
    coord_extract_stif_id (some (compositeId a b c code)) = some code ∧
    extract_stif_id s = none ∧
    coord_extract_stif_id (some s) = some s ∧
    coord_extract_stif_id none = none ∧
    coord_extract_stif_id (some []) = none := by
  have hsplit := splitColon_composite a b c code ha hb hc hcode
  have hcomp_ne : compositeId a b c code ≠ [] := by
    rw [compositeId]
    simp
  refine ⟨?_, ?_, ?_, ?_, rfl, rfl⟩
  · rw [extract_stif_id]
    simp [hno, hsplit, List.getD]
  · rw [coord_extract_stif_id]
    simp [hcomp_ne, hsplit, List.getD]
  · rw [extract_stif_id]
    simp [containsIDFM_eq_false s hs, splitColon_no_colon s hs]
  · rw [coord_extract_stif_id]
    simp [hsne, splitColon_no_colon s hs]

/-- Witness for C3 at the stop identifier `STIF:StopPoint:Q:43114:` and
the malformed input `43114`. -/
theorem normalization_behavior_witness :
    extract_stif_id
        (compositeId "STIF".data "StopPoint".data "Q".data "43114".data) =
      some "43114".data ∧
    coord_extract_stif_id
        (some (compositeId "STIF".data "StopPoint".data "Q".data "43114".data)) =
      some "43114".data ∧
    extract_stif_id "43114".data = none ∧
    coord_extract_stif_id (some "43114".data) = some "43114".data ∧
    coord_extract_stif_id none = none ∧
    coord_extract_stif_id (some []) = none :=
  normalization_behavior "STIF".data "StopPoint".data "Q".data "43114".data "43114".data
    (by decide) (by decide) (by decide) (by decide) (by decide) (by decide) (by decide)

/-! ### Path-check lemmas -/

/-- `pyIndex` is `none` exactly when the element is absent
(`route.index` raises `ValueError` exactly for absent elements). -/
theorem pyIndex_eq_none (r : Route) (x : PyStr) : pyIndex r x = none ↔ x ∉ r := by
  induction r with
  | nil => simp [pyIndex]
  | cons s rest ih =>
    by_cases hsx : s = x
    · subst hsx
      simp [pyIndex]
    · have hxs : ¬x = s := fun h => hsx h.symm
      simp [pyIndex, hsx, hxs, Option.map_eq_none', ih]

/-- On a present element, `pyIndex` returns the first-occurrence index. -/
theorem pyIndex_of_mem (r : Route) (x : PyStr) (h : x ∈ r) :
    pyIndex r x = some (r.indexOf x) := by
  induction r with
  | nil => cases h
  | cons s rest ih =>
    rw [List.indexOf, List.findIdx_cons]
    by_cases hsx : s = x
    · subst hsx
      simp [pyIndex]
    · have hxrest : x ∈ rest := by
        cases h with
        | head => exact absurd rfl hsx
        | tail _ h2 => exact h2
      have hbeq : (s == x) = false := beq_eq_false_iff_ne.mpr hsx
      simp [pyIndex, hsx, hbeq, ih hxrest, List.indexOf]

/-- Evaluation of a route body once the three indices are known. -/
theorem route_matches_eval (r : Route) (s t e : PyStr) (i tj ej : Nat)
    (hs : pyIndex r s = some i) (ht : pyIndex r t = some tj)
    (he : pyIndex r e = some ej) :
    route_matches r s t e = (decide (i < tj) && decide (tj ≤ ej)) := by
  rw [route_matches, hs, ht, he]

/-- A route body succeeds exactly when all three identifiers occur with
first positions in the required order. -/
theorem route_matches_iff (r : Route) (s t e : PyStr) :
    route_matches r s t e = true ↔
      (s ∈ r ∧ t ∈ r ∧ e ∈ r ∧
        r.indexOf s < r.indexOf t ∧ r.indexOf t ≤ r.indexOf e) := by
  constructor
  · intro h
    rw [route_matches] at h
    cases his : pyIndex r s with
    | none => rw [his] at h; cases h
    | some i =>
      cases hit : pyIndex r t with
      | none => rw [his, hit] at h; cases h
      | some tj =>
        cases hie : pyIndex r e with
        | none => rw [his, hit, hie] at h; cases h
        | some ej =>
          rw [his, hit, hie] at h
          simp only [Bool.and_eq_true, decide_eq_true_eq] at h
          have hsm : s ∈ r := by
            by_contra hn
            rw [(pyIndex_eq_none r s).mpr hn] at his
            cases his
          have htm : t ∈ r := by
            by_contra hn
            rw [(pyIndex_eq_none r t).mpr hn] at hit
            cases hit
          have hem : e ∈ r := by
            by_contra hn
            rw [(pyIndex_eq_none r e).mpr hn] at hie
            cases hie
          have hsi : i = r.indexOf s := by
            have := pyIndex_of_mem r s hsm
            rw [his] at this
            exact Option.some_injective _ this
          have hti : tj = r.indexOf t := by
            have := pyIndex_of_mem r t htm
            rw [hit] at this
            exact Option.some_injective _ this
          have hei : ej = r.indexOf e := by
            have := pyIndex_of_mem r e hem
            rw [hie] at this
            exact Option.some_injective _ this
          exact ⟨hsm, htm, hem, hsi ▸ hti ▸ h.1, hti ▸ hei ▸ h.2⟩
  · rintro ⟨hs, ht, he, h1, h2⟩
    rw [route_matches_eval r s t e _ _ _ (pyIndex_of_mem r s hs)
      (pyIndex_of_mem r t ht) (pyIndex_of_mem r e he)]
    simp [h1, h2]

/-- C1: check_stop_on_path returns true iff the terminus is a key of
the table and some route stored under that key contains the start, the
target and the terminus with first positions satisfying
index(start) < index(target) <= index(terminus); when the terminus is
absent from the table the result is false regardless of the other
arguments, and a route missing the start or the target contributes
nothing (it is skipped) rather than failing. -/
theorem check_stop_on_path_spec (topo : Topology) (s t e : PyStr) :
    (check_stop_on_path topo s t e = true ↔ specOnPath topo s t e) ∧
    (dictLookup topo e = none → check_stop_on_path topo s t e = false) := by
  constructor
  · rw [check_stop_on_path, specOnPath]
    cases hl : dictLookup topo e with
    | none => simp
    | some routes =>
      simp only [List.any_eq_true]
      constructor
      · rintro ⟨r, hr, hm⟩
        exact ⟨routes, rfl, r, hr, (route_matches_iff r s t e).mp hm⟩
      · rintro ⟨routes2, heq, r, hr, hcond⟩
        cases heq
        exact ⟨r, hr, (route_matches_iff r s t e).mpr hcond⟩
  · intro h
    rw [check_stop_on_path, h]

/-- Witness for C1: on the empty table every terminus is absent and the
check returns false. -/
theorem check_stop_on_path_spec_witness :
    check_stop_on_path [] "200".data "300".data "400".data = false :=
  (check_stop_on_path_spec [] "200".data "300".data "400".data).2 rfl

/-- C4 counterexample: the route [100, 200] is stored in the table
under its terminus 200 and the pair i = j = 0 satisfies i <= j, yet the
check with start = target = stop 100 returns false, because the code
requires the start position to be strictly smaller than the target
position. -/
theorem isOnPath_refl_counterexample :
    check_stop_on_path [("200".data, [["100".data, "200".data]])]
      "100".data "100".data "200".data = false := by decide

/-- On a duplicate-free route, `pyIndex` recovers the position of each
element. -/
theorem pyIndex_get (l : Route) (hnd : l.Nodup) :
    ∀ (i : Nat) (hi : i < l.length), pyIndex l (l.get ⟨i, hi⟩) = some i := by
  induction l with
  | nil => intro i hi; exact absurd hi (Nat.not_lt_zero i)
  | cons a rest ih =>
    intro i hi
    match i with
    | 0 => simp [pyIndex]
    | Nat.succ j =>
      have hj : j < rest.length := Nat.lt_of_succ_lt_succ hi
      have ha : a ∉ rest := (List.nodup_cons.mp hnd).1
      have hget : rest.get ⟨j, hj⟩ ∈ rest := rest.get_mem _ _
      have hne : a ≠ rest.get ⟨j, hj⟩ := fun he => ha (he ▸ hget)
      have hrest : rest.Nodup := (List.nodup_cons.mp hnd).2
      have hih := ih hrest j hj
      simp only [List.get_eq_getElem] at hne hih
      simp [pyIndex, hne, hih]

/-- C4 (amended): for a table in which the terminus sn maps to exactly
the single route [s0, ..., sn] and the route's stops are pairwise
distinct, isOnPath(table, s_i, s_j, sn) returns true exactly for the
pairs with i < j; in particular it is false for every pair with i = j
and every pair with i > j. -/
theorem isOnPath_order_iff (route : Route) (sn : PyStr) (hne : route ≠ [])
    (hlast : route.getLast hne = sn) (hnd : route.Nodup)
    (i j : Nat) (hi : i < route.length) (hj : j < route.length) :
    check_stop_on_path [(sn, [route])] (route.get ⟨i, hi⟩) (route.get ⟨j, hj⟩) sn = true
      ↔ i < j := by
  have hlu : dictLookup [(sn, [route])] sn = some [route] := by simp [dictLookup]
  have hlen : 0 < route.length := List.length_pos.mpr hne
  have hlast_idx : route.length - 1 < route.length := Nat.sub_lt hlen Nat.one_pos
  have hsn : sn = route.get ⟨route.length - 1, hlast_idx⟩ := by
    rw [← hlast, List.getLast_eq_getElem, List.get_eq_getElem]
  simp only [check_stop_on_path, hlu, List.any_cons, List.any_nil, Bool.or_false]
  rw [hsn, route_matches_eval route _ _ _ i j (route.length - 1)
    (pyIndex_get route hnd i hi) (pyIndex_get route hnd j hj)
    (pyIndex_get route hnd _ hlast_idx)]
  simp only [Bool.and_eq_true, decide_eq_true_eq]
  constructor
  · exact fun h => h.1
  · exact fun h => ⟨h, by omega⟩

/-- Witness for C4 at the spec's end-to-end route, positions 1 and 2. -/
theorem isOnPath_order_iff_witness :
    check_stop_on_path [("400".data, [demoRoute])] (demoRoute.get ⟨1, by decide⟩)
      (demoRoute.get ⟨2, by decide⟩) "400".data = true :=
  (isOnPath_order_iff demoRoute "400".data (by decide) (by decide) (by decide)
    1 2 (by decide) (by decide)).mpr (by decide)

/-! ### Fetch and cache lemmas -/

/-- A `get_ordered_stops` call never removes a cached binding: any line
cached before the call is still bound to the same table afterwards. -/
theorem get_ordered_stops_preserves (net : NavitiaNet) (cache : List (PyStr × Topology))
    (line_id line2 : PyStr) (topo : Topology)
    (hhit : dictLookup cache line_id = some topo) :
    dictLookup (get_ordered_stops net cache line2).2.1 line_id = some topo := by
  rw [get_ordered_stops]
  cases hl2 : dictLookup cache line2 with
  | some t2 => exact hhit
  | none =>
    cases hr : net.routes line2 with
    | none => exact hhit
    | some rids =>
      have hne : line2 ≠ line_id := by
        intro he
        rw [he, hhit] at hl2
        cases hl2
      simp only [dictLookup, if_neg hne]
      exact hhit

/-- C5: when the line is not cached and the routes fetch fails, the
call returns the empty table after exactly one network request, the
cache is left unchanged (nothing is stored for the line), and a
subsequent call for the same line issues the network fetch again (at
least one request) instead of hitting the cache. -/
theorem fetch_failure_not_cached (net net2 : NavitiaNet) (cache : List (PyStr × Topology))
    (line_id : PyStr)
    (hmiss : dictLookup cache line_id = none) (hfail : net.routes line_id = none) :
    get_ordered_stops net cache line_id = ([], cache, 1) ∧
    1 ≤ (get_ordered_stops net2 cache line_id).2.2 := by
  constructor
  · rw [get_ordered_stops]
    simp only [hmiss, hfail]
  · rw [get_ordered_stops]
    simp only [hmiss]
    cases net2.routes line_id with
    | none => exact Nat.le_refl 1
    | some rids => exact Nat.le_add_right 1 rids.length

/-- Witness for C5 at a concrete failing data source and empty cache. -/
theorem fetch_failure_not_cached_witness :
    get_ordered_stops (NavitiaNet.mk (fun _ => none) (fun _ => none)) [] "C01742".data =
      ([], [], 1) ∧
    1 ≤ (get_ordered_stops (NavitiaNet.mk (fun _ => none) (fun _ => none)) []
      "C01742".data).2.2 :=
  fetch_failure_not_cached (NavitiaNet.mk (fun _ => none) (fun _ => none))
    (NavitiaNet.mk (fun _ => none) (fun _ => none)) [] "C01742".data rfl rfl

/-- C6: once a line's table is cached, a call for that line returns the
cached table unchanged with no network request and no cache change, and
no later `get_ordered_stops` operation (for any line, against any data
source) mutates that binding: after any such operation the line still
maps to the same table and a further call for it again returns exactly
that table with no network request — hence repeated queries against it
give identical results. -/
theorem cached_table_immutable (net : NavitiaNet) (cache : List (PyStr × Topology))
    (line_id : PyStr) (topo : Topology)
    (hhit : dictLookup cache line_id = some topo) :
    get_ordered_stops net cache line_id = (topo, cache, 0) ∧
    ∀ (net2 : NavitiaNet) (line2 : PyStr),
      dictLookup (get_ordered_stops net2 cache line2).2.1 line_id = some topo ∧
      get_ordered_stops net2 (get_ordered_stops net2 cache line2).2.1 line_id =
        (topo, (get_ordered_stops net2 cache line2).2.1, 0) := by
  refine ⟨?_, fun net2 line2 => ?_⟩
  · rw [get_ordered_stops]
    simp only [hhit]
  · have hpres := get_ordered_stops_preserves net2 cache line_id line2 topo hhit
    refine ⟨hpres, ?_⟩
    rw [get_ordered_stops]
    simp only [hpres]

/-- Witness for C6 at a concrete one-line cache. -/
theorem cached_table_immutable_witness :
    get_ordered_stops (NavitiaNet.mk (fun _ => none) (fun _ => none))
        [("C01742".data, [("400".data, [demoRoute])])] "C01742".data =
      ([("400".data, [demoRoute])], [("C01742".data, [("400".data, [demoRoute])])], 0) ∧
    ∀ (net2 : NavitiaNet) (line2 : PyStr),
      dictLookup (get_ordered_stops net2
          [("C01742".data, [("400".data, [demoRoute])])] line2).2.1 "C01742".data =
        some [("400".data, [demoRoute])] ∧
      get_ordered_stops net2 (get_ordered_stops net2
          [("C01742".data, [("400".data, [demoRoute])])] line2).2.1 "C01742".data =
        ([("400".data, [demoRoute])],
          (get_ordered_stops net2
            [("C01742".data, [("400".data, [demoRoute])])] line2).2.1, 0) :=
  cached_table_immutable (NavitiaNet.mk (fun _ => none) (fun _ => none))
    [("C01742".data, [("400".data, [demoRoute])])] "C01742".data
    [("400".data, [demoRoute])] (by decide)

/-! ### Sorting lemmas -/

/-- Insertion keeps exactly the elements, adding the new one. -/
theorem insertSched_perm (x : TrafficData) (l : List TrafficData) :
    List.Perm (insertSched x l) (x :: l) := by
  induction l with
  | nil => exact List.Perm.refl _
  | cons y rest ih =>
    rw [insertSched]
    by_cases h : schedKey x ≤ schedKey y
    · rw [if_pos h]
    · rw [if_neg h]
      exact (ih.cons y).trans (List.Perm.swap x y rest)

/-- The sort is a permutation of its input. -/
theorem sortSched_perm (l : List TrafficData) : List.Perm (sortSched l) l := by
  induction l with
  | nil => exact List.Perm.refl _
  | cons x rest ih =>
    rw [sortSched]
    exact (insertSched_perm x (sortSched rest)).trans (ih.cons x)

/-- Insertion preserves sortedness by schedule key. -/
theorem insertSched_pairwise (x : TrafficData) (l : List TrafficData)
    (h : List.Pairwise (fun a b => schedKey a ≤ schedKey b) l) :
    List.Pairwise (fun a b => schedKey a ≤ schedKey b) (insertSched x l) := by
  induction l with
  | nil => simp [insertSched]
  | cons y rest ih =>
    have hy : ∀ z ∈ rest, schedKey y ≤ schedKey z := (List.pairwise_cons.mp h).1
    have hrest : List.Pairwise (fun a b => schedKey a ≤ schedKey b) rest :=
      (List.pairwise_cons.mp h).2
    rw [insertSched]
    by_cases hxy : schedKey x ≤ schedKey y
    · rw [if_pos hxy]
      refine List.pairwise_cons.mpr ⟨?_, h⟩
      intro z hz
      cases hz with
      | head => exact hxy
      | tail _ hz2 => exact Nat.le_trans hxy (hy z hz2)
    · rw [if_neg hxy]
      have hyx : schedKey y ≤ schedKey x := Nat.le_of_not_le hxy
      refine List.pairwise_cons.mpr ⟨?_, ih hrest⟩
      intro z hz
      have hz2 : z ∈ x :: rest := (insertSched_perm x rest).mem_iff.mp hz
      cases hz2 with
      | head => exact hyx
      | tail _ hz3 => exact hy z hz3

/-- The sort output is ascending in schedule key. -/
theorem sortSched_pairwise (l : List TrafficData) :
    List.Pairwise (fun a b => schedKey a ≤ schedKey b) (sortSched l) := by
  induction l with
  | nil => exact List.Pairwise.nil
  | cons x rest ih =>
    rw [sortSched]
    exact insertSched_pairwise x (sortSched rest) ih

/-- C9: the update's departure list contains exactly the fetched
departures that pass the topology filter (when it applies) and whose
schedule is present and strictly later than the supplied now — as a
multiset, i.e. nothing else and with original multiplicities — and the
list is sorted in ascending schedule order; the topology pass acts on
the fetched list before the time filter and the sort. -/
theorem update_filters_and_sorts (topo : Topology) (ut : Bool) (ss ds : Option PyStr)
    (now : Nat) (tr : List TrafficData) :
    List.Perm (async_update_data topo ut ss ds now tr)
      (tr.filter (fun x =>
        (if ut && isTruthy ds then topoPred topo ss ds x else true) && timePred now x)) ∧
    List.Pairwise (fun a b => schedKey a ≤ schedKey b)
      (async_update_data topo ut ss ds now tr) ∧
    (∀ x ∈ async_update_data topo ut ss ds now tr,
      ∃ s, x.schedule = some s ∧ now < s) := by
  have hsorted := sortSched_pairwise
    ((if ut && isTruthy ds then tr.filter (topoPred topo ss ds) else tr).filter (timePred now))
  have hperm : List.Perm (async_update_data topo ut ss ds now tr)
      (tr.filter (fun x =>
        (if ut && isTruthy ds then topoPred topo ss ds x else true) && timePred now x)) := by
    rw [async_update_data]
    by_cases hb : (ut && isTruthy ds) = true
    · rw [if_pos hb]
      refine (sortSched_perm _).trans ?_
      rw [List.filter_filter]
      refine List.Perm.of_eq (List.filter_congr ?_)
      intro a _
      rw [if_pos hb, Bool.and_comm]
    · rw [if_neg hb]
      refine (sortSched_perm _).trans ?_
      refine List.Perm.of_eq (List.filter_congr ?_)
      intro a _
      rw [if_neg hb, Bool.true_and]
  refine ⟨hperm, ?_, ?_⟩
  · rw [async_update_data]
    by_cases hb : (ut && isTruthy ds) = true
    · rw [if_pos hb]
      rw [if_pos hb] at hsorted
      exact hsorted
    · rw [if_neg hb]
      rw [if_neg hb] at hsorted
      exact hsorted
  · intro x hx
    have hx2 := (hperm.mem_iff).mp hx
    have := List.of_mem_filter hx2
    simp only [Bool.and_eq_true] at this
    have ht := this.2
    rw [timePred] at ht
    cases hs : x.schedule with
    | none => rw [hs] at ht; cases ht
    | some s =>
      rw [hs] at ht
      simp only [decide_eq_true_eq] at ht
      exact ⟨s, rfl, ht⟩
